import Mathlib

/-!
# Verification of the LLM-AutoDoc PR-comment mining pipeline

Shallow embedding of the checkpointed PR-comment-mining pipeline of the
`autodoc` package (`bedrock_client.py`, `github_client.py`), together with
theorems settling the frozen specification claims about it.

Conventions: Python strings are Lean `String` / `List Char`; Python's
whitespace-sensitive helpers (`str.strip`, `str.lower`, `str.split`) are
reproduced below; fallible/stateful code is modelled with `Except` values
and explicit state passing.
-/

namespace AutoDoc

/-! ## Python string primitives -/

/-- Python's whitespace class for `str.strip` and the `re` class `\s`
(ASCII part): space, tab, newline, carriage return, vertical tab, form feed. -/
def pyIsSpace (c : Char) : Bool :=
  c = ' ' || c = '\t' || c = '\n' || c = '\r' || c = '\x0b' || c = '\x0c'

/-- `str.strip()` on a character list: drop whitespace from both ends. -/
def pyStripList (l : List Char) : List Char :=
  ((l.dropWhile pyIsSpace).reverse.dropWhile pyIsSpace).reverse

/-- Python `str.strip()`. -/
def pyStrip (s : String) : String :=
  ⟨pyStripList s.toList⟩

/-- Python `str.lower()` (ASCII case folding). -/
def pyLower (s : String) : String :=
  ⟨s.toList.map Char.toLower⟩

/-- Boolean substring containment on character lists: Python's
`needle in haystack` operator on strings. -/
def containsSeq (needle : List Char) : List Char → Bool
  | [] => needle.isEmpty
  | c :: t => needle.isPrefixOf (c :: t) || containsSeq needle t

/-- Python `needle in haystack` for strings. -/
def pyIn (needle hay : String) : Bool :=
  containsSeq needle.toList hay.toList

/-! ## Batch Classifier — `BedrockClient.classify_comments`

Embeds the response-parsing loop, the length reconciliation, and the
exception fallback of `classify_comments` (bedrock_client.py), plus the
mapping of classifications and inferences back onto comments performed by
`GitHubClient._classify_pr_comments` (github_client.py). -/

/-- The three comment categories. -/
inductive Category
  | code_standards
  | discussions
  | general
deriving DecidableEq, Repr

/-- One entry of a PR's `comment_analysis`: the classification together with
the `inferred_comment` paired with it downstream. -/
structure ClassificationResult where
  category : Category
  inferred : String
deriving DecidableEq, Repr

/-- Python `str.split(sep)` for a one-character separator, on char lists. -/
def splitOnChar (sep : Char) : List Char → List (List Char)
  | [] => [[]]
  | c :: t =>
    if c = sep then [] :: splitOnChar sep t
    else
      match splitOnChar sep t with
      | [] => [[c]]
      | h :: r => (c :: h) :: r

/-- Python `str.split(sep)` for a two-character separator `[a, b]`, on char
lists: non-overlapping occurrences, scanned left to right. -/
def splitOnPair (a b : Char) : List Char → List (List Char)
  | [] => [[]]
  | [c] => [[c]]
  | c :: d :: t =>
    if c = a && d = b then [] :: splitOnPair a b t
    else
      match splitOnPair a b (d :: t) with
      | [] => [[c]]
      | h :: r => (c :: h) :: r

/-- Parse one non-empty response block: `lines = response.strip().split('\n')`;
the first line is lower-cased and stripped and tested by substring membership
for `code_standards` then `discussions`; a `code_standards` block with a
non-empty second line contributes that line (stripped) as its inference. -/
def parseBlock (block : List Char) : Category × String :=
  let lines := splitOnChar '\n' (pyStripList block)
  let classificationLine := pyStripList ((lines.headD []).map Char.toLower)
  if containsSeq "code_standards".toList classificationLine then
    match lines with
    | _ :: l2 :: _ =>
      if (pyStripList l2).isEmpty then (Category.code_standards, "")
      else (Category.code_standards, ⟨pyStripList l2⟩)
    | _ => (Category.code_standards, "")
  else if containsSeq "discussions".toList classificationLine then
    (Category.discussions, "")
  else
    (Category.general, "")

/-- Parse the full model text: strip it, split on `"\n\n"`, skip blocks that
are empty after stripping, and parse each remaining block. The first
components are the `classifications` list, the second the `inferences` list
(the code always appends to both in lock-step). -/
def parsePairs (text : String) : List (Category × String) :=
  (splitOnPair '\n' '\n' (pyStripList text.toList)).filterMap fun b =>
    if (pyStripList b).isEmpty then none else some (parseBlock b)

/-- Length reconciliation of `classify_comments`: pad the classification list
with `general` when it is shorter than `num_comments`, truncate it when it is
longer. -/
def reconcile (classifications : List Category) (numComments : Nat) : List Category :=
  if classifications.length < numComments then
    classifications ++ List.replicate (numComments - classifications.length) Category.general
  else if classifications.length > numComments then
    classifications.take numComments
  else
    classifications

/-- Outcome of the Bedrock call plus response decoding inside
`classify_comments`: the decoded text, an unexpected response structure
(content not of type text), or a raised exception (transport or parsing). -/
inductive LLMOutcome
  | text (s : String)
  | badStructure
  | raised (msg : String)

/-- The success path of `classify_comments`: parse the text, reconcile the
classification list to `numComments`, and store the parsed inferences in
`self.inferences`. -/
def classifyCommentsCore (text : String) (numComments : Nat) :
    List Category × List String :=
  let pairs := parsePairs text
  (reconcile (pairs.map Prod.fst) numComments, pairs.map Prod.snd)

/-- `classify_comments` as a function of the instance's previous
`self.inferences` value and the LLM outcome. It returns the classification
list and the new `self.inferences`: on an unexpected structure or an
exception the method returns `['general'] * num_comments` and leaves
`self.inferences` untouched; no exception escapes. -/
def classifyComments (prevInferences : List String) (outcome : LLMOutcome)
    (numComments : Nat) : List Category × List String :=
  match outcome with
  | LLMOutcome.text s => classifyCommentsCore s numComments
  | LLMOutcome.badStructure => (List.replicate numComments Category.general, prevInferences)
  | LLMOutcome.raised _ => (List.replicate numComments Category.general, prevInferences)

/-- Index-threaded worker of `mapResults` (the `for idx, ... in
enumerate(zip(...))` loop of `_classify_pr_comments`). -/
def mapResultsFrom (inferences : List String) (idx : Nat) :
    List Category → List ClassificationResult
  | [] => []
  | c :: rest =>
    { category := c,
      inferred := if c = Category.code_standards then inferences.getD idx "" else "" }
      :: mapResultsFrom inferences (idx + 1) rest

/-- `_classify_pr_comments`: pair each classification with the inference at
its index (empty when the index is out of range), keeping the inference only
for `code_standards` entries. -/
def mapResults (classifications : List Category) (inferences : List String) :
    List ClassificationResult :=
  mapResultsFrom inferences 0 classifications

/-! ## PR Selector — `GitHubClient.get_top_k_prs_by_comments`

Embeds the ranking step: `prs_with_comments.sort(key=lambda x:
x['comment_count'], reverse=True)` followed by `[:k]`. Python's `sort` is
stable; with `reverse=True` elements of equal key keep their original
relative order, which is exactly stable insertion that places a new element
before the first strictly smaller key. -/

/-- Lightweight PR metadata collected by the selector: the fields the
pipeline's bookkeeping reads (`pr_number`, `comment_count`). -/
structure PRInfo where
  pr_number : Nat
  comment_count : Nat
deriving DecidableEq, Repr

/-- Stable descending insertion by `comment_count`. -/
def insertByCommentsDesc (pr : PRInfo) : List PRInfo → List PRInfo
  | [] => [pr]
  | q :: rest =>
    if pr.comment_count ≥ q.comment_count then pr :: q :: rest
    else q :: insertByCommentsDesc pr rest

/-- Python's stable `list.sort(key=comment_count, reverse=True)`. -/
def sortByCommentsDesc : List PRInfo → List PRInfo
  | [] => []
  | pr :: rest => insertByCommentsDesc pr (sortByCommentsDesc rest)

/-- `get_top_k_prs_by_comments` ranking: sort the confirmed candidates by
comment count descending and return the first `k`. -/
def topKByComments (candidates : List PRInfo) (k : Nat) : List PRInfo :=
  (sortByCommentsDesc candidates).take k

/-- All ways to insert an element into a list (enumeration scaffolding for
quantifying a claim over every arrival order of the candidates). -/
def insertEverywhere (x : PRInfo) : List PRInfo → List (List PRInfo)
  | [] => [[x]]
  | y :: ys => (x :: y :: ys) :: (insertEverywhere x ys).map (fun l => y :: l)

/-- All arrival orders (permutations) of a candidate list. -/
def arrangements : List PRInfo → List (List PRInfo)
  | [] => [[]]
  | x :: xs => (arrangements xs).flatMap (insertEverywhere x)

/-! ## Checkpoint restore and pending-work dispatch — `generate_llmtxt`

Embeds the INIT/resume logic (lines 379–424 of github_client.py): the
checkpoint fields restored on resume, the fallback fetch when `top_prs` is
empty, and the filter selecting only unprocessed PRs for the worker pool. -/

/-- One accumulated `comment_data` record of the checkpoint's
`all_comments`. -/
structure CommentDatum where
  pr_number : Nat
  file : String
  comment : String
  inferred_comment : String
deriving DecidableEq, Repr

/-- The pickled `checkpoint_data` dictionary. -/
structure CheckpointData where
  all_comments : List CommentDatum
  code_standards_count : Nat
  total_comments_count : Nat
  top_prs : List PRInfo
  processed_pr_ids : List Nat
deriving DecidableEq, Repr

/-- The orchestrator's mutable locals right after the resume block. -/
structure InitState where
  all_comments : List CommentDatum
  code_standards_count : Nat
  total_comments_count : Nat
  top_prs : List PRInfo
  processed_pr_ids : List Nat
deriving DecidableEq, Repr

/-- The resume block: with `resume=true` and a loadable checkpoint, restore
all five fields from it; otherwise keep the freshly initialised empty
state. `checkpoint = none` covers both a missing file and a load
exception (which resets `resume` to false). -/
def initFromCheckpoint (resume : Bool) (checkpoint : Option CheckpointData) :
    InitState :=
  match resume, checkpoint with
  | true, some c =>
    ⟨c.all_comments, c.code_standards_count, c.total_comments_count,
      c.top_prs, c.processed_pr_ids⟩
  | _, _ => ⟨[], 0, 0, [], []⟩

/-- `if not top_prs: top_prs = self.get_top_k_prs_by_comments(...)`: the
selector (and with it the Comment Extractor) runs only when the restored
`top_prs` is empty. -/
def resolveTopPrs (restored : List PRInfo) (fetched : List PRInfo) : List PRInfo :=
  if restored.isEmpty then fetched else restored

/-- `unprocessed_prs = [pr for pr in top_prs if pr['pr_number'] not in
processed_pr_ids]`: exactly these PRs are submitted to the worker pool. -/
def unprocessedPrs (topPrs : List PRInfo) (processedIds : List Nat) : List PRInfo :=
  topPrs.filter fun pr => !(processedIds.contains pr.pr_number)

/-! ## Checkpoint Store persistence — file-operation model

`generate_llmtxt` saves a checkpoint with `open(checkpoint_path, 'wb')`
followed by `pickle.dump(checkpoint_data, f)`. Opening a file in `'wb'`
mode truncates it; the dump then writes the serialized bytes. The model
below records the primitive file operations a save performs and the
sequence of contents a concurrent reader (or a reader after a crash at any
point of the save) can observe at the checkpoint path. -/

/-- Primitive file-system operations relevant to the save path. -/
inductive FileOp
  | truncateOpen (path : String)
  | writeAll (path : String) (data : List Char)
  | renameInto (src dst : String)
deriving DecidableEq, Repr

/-- The operations performed by one checkpoint save in the code:
`open(path, 'wb')` (truncate) then `pickle.dump` (write). No temporary
file and no rename is involved. -/
def saveCheckpointOps (path : String) (data : List Char) : List FileOp :=
  [FileOp.truncateOpen path, FileOp.writeAll path data]

/-- Effect of one operation on the content stored at `watched`. A rename
whose destination is `watched` installs the renamed file's content
atomically; the source content is supplied by the caller of the model. -/
def fileOpEffect (watched : String) (srcContent : List Char) (content : List Char) :
    FileOp → List Char
  | FileOp.truncateOpen p => if p = watched then [] else content
  | FileOp.writeAll p d => if p = watched then content ++ d else content
  | FileOp.renameInto _ dst => if dst = watched then srcContent else content

/-- Every content a reader of `watched` can observe while the operation
sequence runs: the initial content and the content after each prefix of the
operations. -/
def readerViews (watched : String) (srcContent : List Char) (initial : List Char)
    (ops : List FileOp) : List (List Char) :=
  ops.scanl (fileOpEffect watched srcContent) initial

/-- A save is atomic for readers when no observable content differs from
both the old and the new checkpoint. -/
def atomicForReaders (watched : String) (srcContent : List Char)
    (oldContent newContent : List Char) (ops : List FileOp) : Prop :=
  ∀ v ∈ readerViews watched srcContent oldContent ops,
    v = oldContent ∨ v = newContent

/-! ## Idempotence guard — `generate_llmtxt` DONE stage

Embeds lines 353–367 (the `existing_file` flag: the output path exists,
was readable, and its content is non-empty after `strip()`) and lines
513–530 (`should_write`). -/

/-- The `existing_file` flag computed at the start of the run. -/
def existingFileFlag (fileExists : Bool) (existingContent : String) : Bool :=
  fileExists && !(pyStripList existingContent.toList).isEmpty

/-- `should_write`: start from `True`; when `existing_file` is set, compare
the newly synthesized content with the pre-existing content and skip the
write exactly when they are equal. -/
def shouldWriteGuidelines (fileExists : Bool) (existingContent newContent : String) :
    Bool :=
  if existingFileFlag fileExists existingContent then
    existingContent != newContent
  else
    true

/-- The value `generate_llmtxt_guidelines` returns as a function of the
LLM outcome (bedrock_client.py lines 224–238): the success path returns the
response text stripped (`content[0].get('text', '').strip()`), an
unexpected response structure returns the fixed message
`"Unable to generate coding guidelines."`, and the `except` branch returns
`f"Error generating coding guidelines: {str(e)}"`. This is the only
producer of the `llmtxt_content` compared by the idempotence guard. -/
def generateLlmtxtGuidelines (outcome : LLMOutcome) : String :=
  match outcome with
  | LLMOutcome.text s => pyStrip s
  | LLMOutcome.badStructure => "Unable to generate coding guidelines."
  | LLMOutcome.raised msg => "Error generating coding guidelines: " ++ msg

/-! ## Guideline Synthesizer truncation — `generate_llmtxt_guidelines`

Embeds lines 174–193 of bedrock_client.py: for existing content longer
than 20,000 characters, the update prompt receives an optimized view —
the table-of-contents section found by
`re.search(r'## Table of Contents.*?(?=##\s+\w+|$)', content, re.DOTALL)`,
the first 10,000 characters, a truncation marker, and the last 5,000
characters — instead of the content itself. -/

/-- The `re` word class `\w` (ASCII part): letters, digits, underscore. -/
def reIsWord (c : Char) : Bool :=
  c.isAlphanum || c = '_'

/-- After at least the one mandatory whitespace character, skip further
whitespace and require a word character (`\s+\w+` continued). -/
def spacesThenWord : List Char → Bool
  | [] => false
  | c :: t => if pyIsSpace c then spacesThenWord t else reIsWord c

/-- Lookahead alternative `##\s+\w+`: two hashes, one or more whitespace
characters, then a word character. -/
def hashHeadingAt : List Char → Bool
  | '#' :: '#' :: rest =>
    match rest with
    | [] => false
    | c :: t => pyIsSpace c && spacesThenWord t
  | _ => false

/-- Lookahead alternative `$` (no `re.MULTILINE`): end of string, or just
before a terminating newline. -/
def endAnchorAt : List Char → Bool
  | [] => true
  | ['\n'] => true
  | _ => false

/-- Where the lazy `.*?` of the TOC regex stops growing. -/
def tocStopAt (rest : List Char) : Bool :=
  hashHeadingAt rest || endAnchorAt rest

/-- The lazy extension of `.*?(?=##\s+\w+|$)` under `re.DOTALL`: consume
characters one at a time until the lookahead first succeeds. -/
def tocLazyBody : List Char → List Char
  | [] => []
  | c :: t => if tocStopAt (c :: t) then [] else c :: tocLazyBody t

/-- The literal head of the TOC regex. -/
def tocLiteral : List Char := "## Table of Contents".toList

/-- `re.search`: scan for the leftmost occurrence of the literal head, then
extend lazily; `none` when the heading marker is absent. -/
def findTocMatch : List Char → Option (List Char)
  | [] => none
  | c :: t =>
    if tocLiteral.isPrefixOf (c :: t) then
      some (tocLiteral ++ tocLazyBody (List.drop tocLiteral.length (c :: t)))
    else
      findTocMatch t

/-- `toc_section = toc_match.group(0) if toc_match else ""`. -/
def tocSection (content : String) : String :=
  ⟨(findTocMatch content.toList).getD []⟩

/-- Python slice `content[:n]`. -/
def pySlice (n : Nat) (content : String) : String :=
  ⟨content.toList.take n⟩

/-- Python slice `content[-n:]` for `n ≤ len(content)`. -/
def pySliceLast (n : Nat) (content : String) : String :=
  ⟨content.toList.drop (content.toList.length - n)⟩

/-- The fixed truncation marker of the optimized-content f-string. -/
def truncationMarker : String := "[Content truncated for efficiency]"

/-- `optimized_content`: the f-string
`f"{toc_section}\n\n{start_content}\n\n...\n[Content truncated for efficiency]\n\n{end_content}"`
with `start_content = content[:10000]` and
`end_content = content[-5000:] if len(content) > 5000 else ""`. -/
def optimizedContent (content : String) : String :=
  tocSection content ++ "\n\n" ++ pySlice 10000 content ++
    ("\n\n...\n" ++ truncationMarker ++ "\n\n") ++
    (if content.toList.length > 5000 then pySliceLast 5000 content else "")

/-- The string substituted for `{existing_content}` in the prompt template:
`none` when there is no existing content (generation prompt is used),
otherwise the optimized view for content above 20,000 characters and the
verbatim content below. -/
def promptExistingArg (existingContent : String) : Option String :=
  if (pyStripList existingContent.toList).isEmpty then none
  else if existingContent.toList.length > 20000 then
    some (optimizedContent existingContent)
  else
    some existingContent

/-- `LLMTXT_UPDATE_PROMPT.format(existing_content=..., ...)` viewed with the
template split at the `{existing_content}` hole: the substituted argument is
spliced between the fixed template parts. -/
def updatePromptFor (tmplBefore tmplAfter : String) (existingArg : String) : String :=
  tmplBefore ++ existingArg ++ tmplAfter

/-! ## Cost Ledger updates — `tracked_invoke_model`

`tracked_invoke_model` updates the shared counters with plain statements
`self.input_tokens += input_tokens` (etc.) and acquires no lock: each
update is a non-atomic load of the shared cell followed by a store of the
incremented value. The model below runs two such updates, one per worker
thread, under an arbitrary interleaving and records the final cell
value. -/

/-- Atomic machine steps available to a ledger-updating thread. The code of
`tracked_invoke_model` contains no lock, so its program uses only `load`
and `store`. -/
inductive LedgerOp
  | acquireLock
  | releaseLock
  | load
  | store
deriving DecidableEq, Repr

/-- The ledger-update program run by `tracked_invoke_model` on its return
path for one shared counter: `self.input_tokens += n` is a load followed by
a store; no lock operations appear. -/
def trackedInvokeLedgerOps : List LedgerOp := [LedgerOp.load, LedgerOp.store]

/-- One thread's execution state: the operations still to run and the value
loaded from the shared cell (0 before the load; programs here always load
before storing). -/
structure ThreadState where
  todo : List LedgerOp
  reg : Nat
deriving DecidableEq, Repr

/-- Shared-memory state: the counter cell, the lock holder, and both
threads. -/
structure LedgerMachine where
  cell : Nat
  lockHeld : Option Bool
  thread0 : ThreadState
  thread1 : ThreadState
deriving DecidableEq, Repr

/-- Run one step of a thread (identified by `tid`) adding `amount`: a load
copies the cell into the register, a store writes register + amount, lock
operations block when the lock is held by the other thread. -/
def threadStep (tid : Bool) (amount : Nat) (m : LedgerMachine) : LedgerMachine :=
  let ts := if tid then m.thread1 else m.thread0
  match ts.todo with
  | [] => m
  | op :: rest =>
    let blocked : Bool :=
      match op, m.lockHeld with
      | LedgerOp.acquireLock, some owner => owner != tid
      | _, _ => false
    if blocked then m
    else
      let (cell', lock', ts') :=
        match op with
        | LedgerOp.acquireLock => (m.cell, some tid, { ts with todo := rest })
        | LedgerOp.releaseLock => (m.cell, none, { ts with todo := rest })
        | LedgerOp.load => (m.cell, m.lockHeld, { todo := rest, reg := m.cell })
        | LedgerOp.store => (ts.reg + amount, m.lockHeld, { ts with todo := rest })
      if tid then { cell := cell', lockHeld := lock', thread0 := m.thread0, thread1 := ts' }
      else { cell := cell', lockHeld := lock', thread0 := ts', thread1 := m.thread1 }

/-- Run a schedule (the list of thread ids picked at each step) over two
concurrent `tracked_invoke_model` counter updates adding `a0` and `a1` to a
cell starting at `init`. -/
def runLedgerSchedule (a0 a1 init : Nat) (schedule : List Bool) : LedgerMachine :=
  schedule.foldl
    (fun m tid => threadStep tid (if tid then a1 else a0) m)
    { cell := init, lockHeld := none,
      thread0 := ⟨trackedInvokeLedgerOps, 0⟩,
      thread1 := ⟨trackedInvokeLedgerOps, 0⟩ }

/-- Both updates ran to completion under the schedule. -/
def ledgerRunComplete (a0 a1 init : Nat) (schedule : List Bool) : Prop :=
  (runLedgerSchedule a0 a1 init schedule).thread0.todo = [] ∧
    (runLedgerSchedule a0 a1 init schedule).thread1.todo = []

/-- The mutual-exclusion contract: every completed pair of concurrent
updates accumulates both amounts. -/
def ledgerUpdatesNeverLost : Prop :=
  ∀ a0 a1 init schedule, ledgerRunComplete a0 a1 init schedule →
    (runLedgerSchedule a0 a1 init schedule).cell = init + a0 + a1

/-! ## Checkpoint-save failure tolerance — `generate_llmtxt` analysis loop

Embeds the `as_completed` loop (lines 429–471): per-PR accumulator update
followed by a checkpoint save whose exception is caught and logged, the
stage-marker save (lines 477–491) with the same try/except shape, and the
function's return value. -/

/-- One classified PR handed back by a worker: its number, title and
analysed comments. -/
structure PRAnalysis where
  pr_number : Nat
  title : String
  comment_analysis : List (String × String × Category × String)
deriving DecidableEq, Repr

/-- The accumulator mutated by the loop body: comment store, counters and
the processed-PR set. -/
structure RunAcc where
  all_comments : List CommentDatum
  code_standards_count : Nat
  total_comments_count : Nat
  processed_pr_ids : List Nat
deriving DecidableEq, Repr

/-- The pure part of one loop iteration for a successful worker result:
mark the PR processed, bump the counters, and append each `code_standards`
comment's datum. -/
def accumulateResult (acc : RunAcc) (r : PRAnalysis) : RunAcc :=
  let acc := { acc with processed_pr_ids := acc.processed_pr_ids ++ [r.pr_number] }
  r.comment_analysis.foldl
    (fun acc a =>
      let (file, comment, classification, inferred) := a
      let acc := { acc with total_comments_count := acc.total_comments_count + 1 }
      if classification = Category.code_standards then
        { acc with
          code_standards_count := acc.code_standards_count + 1,
          all_comments := acc.all_comments ++
            [⟨r.pr_number, file, comment, inferred⟩] }
      else acc)
    acc

/-- A checkpoint save attempt: `pickle.dump` either succeeds or raises. -/
def attemptSave (ok : Bool) : Except String Unit :=
  if ok then Except.ok () else Except.error "checkpoint save failed"

/-- One iteration with its trailing `try: pickle.dump ... except Exception
as e: logger.error(...)`: the save outcome is caught either way and the
iteration continues with the updated accumulator. -/
def iterationWithSave (acc : RunAcc) (r : PRAnalysis) (saveOk : Bool) : RunAcc :=
  let acc' := accumulateResult acc r
  match attemptSave saveOk with
  | Except.ok _ => acc'
  | Except.error _ => acc'

/-- The `as_completed` loop over worker results (`none` = a worker that
errored, logged and skipped), threading the save oracle by attempt index. -/
def analysisLoop (saves : Nat → Bool) (saveIdx : Nat) (acc : RunAcc) :
    List (Option PRAnalysis) → RunAcc
  | [] => acc
  | none :: rest => analysisLoop saves saveIdx acc rest
  | some r :: rest =>
    analysisLoop saves (saveIdx + 1) (iterationWithSave acc r (saves saveIdx)) rest

/-- The initial accumulator of a fresh (non-resumed) run. -/
def initRunAcc : RunAcc := ⟨[], 0, 0, []⟩

/-- `generate_llmtxt` from the analysis loop to the return statement: run
the loop, attempt the stage-marker save (its exception is caught and
logged), run synthesis, and return `True` — or `False` only when synthesis
itself raised. Checkpoint-save outcomes never reach the return value. -/
def generateLlmtxtOutcome (saves : Nat → Bool) (stageSaveOk : Bool)
    (results : List (Option PRAnalysis)) (synthesisOk : Bool) : RunAcc × Bool :=
  let acc := analysisLoop saves 0 initRunAcc results
  let _stageMarker :=
    match attemptSave stageSaveOk with
    | Except.ok _ => ()
    | Except.error _ => ()
  (acc, if synthesisOk then true else false)

/-! ## Helper lemmas -/

theorem containsSeq_of_isInfix {n h : List Char} (hi : n <:+: h) :
    containsSeq n h = true := by
  induction h with
  | nil =>
    have hn : n = [] := List.eq_nil_of_infix_nil hi
    simp [containsSeq, hn, List.isEmpty]
  | cons c t ih =>
    rcases hi with ⟨a, b, hab⟩
    cases a with
    | nil =>
      have hp : n <+: c :: t := ⟨b, by simpa using hab⟩
      simp [containsSeq, List.isPrefixOf_iff_prefix.mpr hp]
    | cons x xs =>
      have ht : n <:+: t := ⟨xs, b, by simpa using congrArg List.tail hab⟩
      simp [containsSeq, ih ht]

theorem isInfix_of_containsSeq {n h : List Char} (hc : containsSeq n h = true) :
    n <:+: h := by
  induction h with
  | nil =>
    have hn : n = [] := by simpa [containsSeq, List.isEmpty_iff] using hc
    simp [hn]
  | cons c t ih =>
    simp only [containsSeq, Bool.or_eq_true] at hc
    rcases hc with hp | ht
    · exact (List.isPrefixOf_iff_prefix.mp hp).isInfix
    · exact List.infix_cons (ih ht)

theorem reconcile_length (cls : List Category) (n : Nat) :
    (reconcile cls n).length = n := by
  unfold reconcile
  by_cases h1 : cls.length < n
  · rw [if_pos h1]
    simp only [List.length_append, List.length_replicate]
    omega
  · rw [if_neg h1]
    by_cases h2 : cls.length > n
    · rw [if_pos h2]
      simp only [List.length_take]
      omega
    · rw [if_neg h2]
      omega

theorem reconcile_pad (cls : List Category) (n : Nat) (h : cls.length ≤ n) :
    reconcile cls n = cls ++ List.replicate (n - cls.length) Category.general := by
  unfold reconcile
  by_cases h1 : cls.length < n
  · rw [if_pos h1]
  · rw [if_neg h1, if_neg (by omega)]
    have hz : n - cls.length = 0 := by omega
    simp [hz]

theorem reconcile_trunc (cls : List Category) (n : Nat) (h : n < cls.length) :
    reconcile cls n = cls.take n := by
  unfold reconcile
  rw [if_neg (by omega), if_pos (by omega)]

theorem mapResultsFrom_replicate (infs : List String) (i n : Nat) :
    mapResultsFrom infs i (List.replicate n Category.general) =
      List.replicate n ⟨Category.general, ""⟩ := by
  induction n generalizing i with
  | zero => rfl
  | succ k ih => simp [List.replicate_succ, mapResultsFrom, ih]

/-! ## Claims C1–C3: Batch Classifier -/

/-- C1: `classify_comments` always returns exactly `num_comments`
classifications — padding the parsed list with `general` when the model
produced too few blocks, and truncating to the first `num_comments` when it
produced too many. -/
theorem classify_comments_length_invariance (prev : List String) (o : LLMOutcome)
    (n : Nat) :
    (classifyComments prev o n).1.length = n
    ∧ (∀ s, o = LLMOutcome.text s →
        (((parsePairs s).map Prod.fst).length ≤ n →
          (classifyComments prev o n).1 =
            (parsePairs s).map Prod.fst ++
              List.replicate (n - ((parsePairs s).map Prod.fst).length)
                Category.general)
        ∧ (n < ((parsePairs s).map Prod.fst).length →
          (classifyComments prev o n).1 = ((parsePairs s).map Prod.fst).take n)) := by
  constructor
  · cases o with
    | text s =>
      simpa [classifyComments, classifyCommentsCore] using
        reconcile_length ((parsePairs s).map Prod.fst) n
    | badStructure => simp [classifyComments]
    | raised m => simp [classifyComments]
  · rintro s rfl
    exact ⟨fun hle => reconcile_pad _ n hle, fun hgt => reconcile_trunc _ n hgt⟩

/-- Witness for C1 at a concrete undersized response: one parsed block for a
batch of 3 comments; the tail is padded with `general`. -/
theorem classify_comments_length_invariance_witness :
    (classifyComments [] (LLMOutcome.text "discussions") 3).1 =
      (parsePairs "discussions").map Prod.fst ++
        List.replicate (3 - ((parsePairs "discussions").map Prod.fst).length)
          Category.general :=
  ((classify_comments_length_invariance [] (LLMOutcome.text "discussions") 3).2
    "discussions" rfl).1 (by decide)

/-- C2: when the Bedrock call or the response decoding raises, the `except`
branch of `classify_comments` returns `num_comments` copies of `general`
(and since a `general` classification never carries an inference, the
per-comment results downstream all have an empty inference); the function
returns a value rather than re-raising. -/
theorem classify_comments_exception_failsafe (prev : List String) (msg : String)
    (n : Nat) :
    classifyComments prev (LLMOutcome.raised msg) n
        = (List.replicate n Category.general, prev)
    ∧ mapResults (classifyComments prev (LLMOutcome.raised msg) n).1
          (classifyComments prev (LLMOutcome.raised msg) n).2
        = List.replicate n ⟨Category.general, ""⟩
    ∧ (classifyComments prev (LLMOutcome.raised msg) n).1.length = n := by
  refine ⟨rfl, ?_, by simp [classifyComments]⟩
  exact mapResultsFrom_replicate prev 0 n

/-- C3: the classifier response
`"code_standards\nPrefer early returns.\n\ndiscussions\n"` for 2 submitted
comments parses to exactly a `code_standards` result with inference
`"Prefer early returns."` followed by a `discussions` result with no
inference. -/
theorem classify_scenario_two_comments :
    (let r := classifyComments []
        (LLMOutcome.text "code_standards\nPrefer early returns.\n\ndiscussions\n") 2
     mapResults r.1 r.2) =
      [⟨Category.code_standards, "Prefer early returns."⟩,
        ⟨Category.discussions, ""⟩] := by
  decide

/-! ## Claim C4: resume correctness -/

/-- C4: a resumed run with a loadable checkpoint restores `all_comments`,
both counters, `top_prs` and `processed_pr_ids` from it; with a non-empty
restored `top_prs` the selector/extractor is not invoked again (whatever it
would have fetched is ignored), and the worker pool receives exactly the
restored PRs whose number is not in `processed_pr_ids`. -/
theorem resume_dispatches_only_unprocessed (c : CheckpointData)
    (fetched : List PRInfo) (hne : c.top_prs ≠ []) :
    initFromCheckpoint true (some c) =
        ⟨c.all_comments, c.code_standards_count, c.total_comments_count,
          c.top_prs, c.processed_pr_ids⟩
    ∧ resolveTopPrs (initFromCheckpoint true (some c)).top_prs fetched = c.top_prs
    ∧ unprocessedPrs (resolveTopPrs (initFromCheckpoint true (some c)).top_prs fetched)
          (initFromCheckpoint true (some c)).processed_pr_ids
        = c.top_prs.filter (fun pr => !(c.processed_pr_ids.contains pr.pr_number))
    ∧ (∀ pr ∈ unprocessedPrs
          (resolveTopPrs (initFromCheckpoint true (some c)).top_prs fetched)
          (initFromCheckpoint true (some c)).processed_pr_ids,
        pr ∈ c.top_prs ∧ pr.pr_number ∉ c.processed_pr_ids)
    ∧ (∀ pr ∈ c.top_prs, pr.pr_number ∉ c.processed_pr_ids →
        pr ∈ unprocessedPrs
          (resolveTopPrs (initFromCheckpoint true (some c)).top_prs fetched)
          (initFromCheckpoint true (some c)).processed_pr_ids) := by
  have hres : resolveTopPrs (initFromCheckpoint true (some c)).top_prs fetched
      = c.top_prs := by
    show resolveTopPrs c.top_prs fetched = c.top_prs
    unfold resolveTopPrs
    rw [if_neg]
    simp [List.isEmpty_iff, hne]
  refine ⟨rfl, hres, by rw [hres]; rfl, ?_, ?_⟩
  · intro pr hpr
    rw [hres] at hpr
    have hpr' : pr ∈ c.top_prs.filter
        (fun pr => !(c.processed_pr_ids.contains pr.pr_number)) := hpr
    have hmf := List.mem_filter.mp hpr'
    refine ⟨hmf.1, ?_⟩
    have hb := hmf.2
    simp only [Bool.not_eq_true'] at hb
    intro hmem
    have hx : c.processed_pr_ids.contains pr.pr_number = true :=
      List.elem_iff.mpr hmem
    rw [hx] at hb
    exact Bool.true_eq_false.mp hb
  · intro pr hpr hnp
    rw [hres]
    show pr ∈ c.top_prs.filter
        (fun pr => !(c.processed_pr_ids.contains pr.pr_number))
    refine List.mem_filter.mpr ⟨hpr, ?_⟩
    simp only [Bool.not_eq_true']
    rcases hcon : c.processed_pr_ids.contains pr.pr_number with _ | _
    · rfl
    · have hmem : pr.pr_number ∈ c.processed_pr_ids := List.elem_iff.mp hcon
      exact absurd hmem hnp

/-- Witness for C4: a checkpoint holding 5 top PRs of which 2 (numbers 1
and 2) are processed dispatches exactly the remaining 3. -/
theorem resume_dispatches_only_unprocessed_witness :
    unprocessedPrs
        (resolveTopPrs
          (initFromCheckpoint true
            (some ⟨[], 0, 0,
              [⟨1, 50⟩, ⟨2, 40⟩, ⟨3, 30⟩, ⟨4, 20⟩, ⟨5, 10⟩], [1, 2]⟩)).top_prs [])
        (initFromCheckpoint true
          (some ⟨[], 0, 0,
            [⟨1, 50⟩, ⟨2, 40⟩, ⟨3, 30⟩, ⟨4, 20⟩, ⟨5, 10⟩], [1, 2]⟩)).processed_pr_ids
      = [⟨3, 30⟩, ⟨4, 20⟩, ⟨5, 10⟩] := by
  have h := (resume_dispatches_only_unprocessed
    ⟨[], 0, 0, [⟨1, 50⟩, ⟨2, 40⟩, ⟨3, 30⟩, ⟨4, 20⟩, ⟨5, 10⟩], [1, 2]⟩
    [] (by decide)).2.2.1
  rw [h]
  decide

/-! ## Claim C5: checkpoint save atomicity — refuted -/

/-- C5 counterexample: the save path of `generate_llmtxt`
(`open(checkpoint_path, 'wb')` then `pickle.dump`) is not atomic for
readers: with previous checkpoint content `"o"` and new content `"n"`, a
reader between the truncating open and the dump observes the empty torn
content. -/
theorem checkpoint_save_not_atomic_counterexample :
    ¬ atomicForReaders "ck" [] ['o'] ['n'] (saveCheckpointOps "ck" ['n']) := by
  unfold atomicForReaders
  decide

/-- C5 amended: every checkpoint save writes directly to the final path —
it performs no rename (so no write-to-temp-then-rename scheme) — and its
reader-observable contents are exactly old, empty, new; whenever the old
and new serialized states are non-empty, the empty intermediate state is a
torn checkpoint, so the save is not atomic from a reader's perspective. -/
theorem checkpoint_save_direct_write_torn (path : String) (src old data : List Char)
    (hold : old ≠ []) (hdata : data ≠ []) :
    (∀ op ∈ saveCheckpointOps path data, ∀ s d, op ≠ FileOp.renameInto s d)
    ∧ readerViews path src old (saveCheckpointOps path data) = [old, [], data]
    ∧ ¬ atomicForReaders path src old data (saveCheckpointOps path data) := by
  have hviews : readerViews path src old (saveCheckpointOps path data)
      = [old, [], data] := by
    simp [readerViews, saveCheckpointOps, List.scanl, fileOpEffect]
  refine ⟨?_, hviews, ?_⟩
  · intro op hop s d
    simp only [saveCheckpointOps, List.mem_cons, List.mem_singleton] at hop
    rcases hop with h | h | h
    · simp [h]
    · simp [h]
    · exact absurd h (by simp)
  · intro hat
    have hmem : ([] : List Char) ∈ readerViews path src old (saveCheckpointOps path data) := by
      rw [hviews]
      simp
    rcases hat [] hmem with h | h
    · exact hold h.symm
    · exact hdata h.symm

/-- Witness for the amended C5 at concrete contents `"o"` and `"n"`. -/
theorem checkpoint_save_direct_write_torn_witness :
    (∀ op ∈ saveCheckpointOps "ck" ['n'], ∀ s d, op ≠ FileOp.renameInto s d)
    ∧ readerViews "ck" [] ['o'] (saveCheckpointOps "ck" ['n']) = [['o'], [], ['n']]
    ∧ ¬ atomicForReaders "ck" [] ['o'] ['n'] (saveCheckpointOps "ck" ['n']) :=
  checkpoint_save_direct_write_torn "ck" [] ['o'] ['n'] (by decide) (by decide)

/-! ## Claim C6: top-K PR selection scenario -/

/-- C6: for confirmed candidates numbered 10, 11, 12, 13 with comment
counts 40, 15, 15, 5 in any arrival order, the top-3 selection returns the
three highest-comment candidates with counts sorted descending — number 10
first, then 11 and 12 in either order — and never number 13. -/
theorem top3_selection_scenario :
    ((arrangements [(⟨10, 40⟩ : PRInfo), ⟨11, 15⟩, ⟨12, 15⟩, ⟨13, 5⟩]).all
      fun cands =>
        let nums := (topKByComments cands 3).map PRInfo.pr_number
        (nums = [10, 11, 12] || nums = [10, 12, 11]) &&
          !(nums.contains 13) &&
          ((topKByComments cands 3).map PRInfo.comment_count = [40, 15, 15])) = true := by
  decide

/-! ## Claim C7: idempotence guard -/

theorem dropWhile_head_false {p : Char → Bool} :
    ∀ {l c t}, List.dropWhile p l = c :: t → p c = false := by
  intro l
  induction l with
  | nil => intro c t h; simp [List.dropWhile] at h
  | cons a as ih =>
    intro c t h
    rw [List.dropWhile_cons] at h
    by_cases hp : p a
    · rw [if_pos hp] at h
      exact ih h
    · rw [if_neg hp] at h
      injection h with h1 _
      subst h1
      simpa using hp

theorem pyStripList_ne_nil_of_mem {l : List Char} {c : Char} (hm : c ∈ l)
    (hc : pyIsSpace c = false) : pyStripList l ≠ [] := by
  intro hnil
  unfold pyStripList at hnil
  have hrev : (List.dropWhile pyIsSpace l).reverse.dropWhile pyIsSpace = [] :=
    List.reverse_inj.mp (by simpa using hnil)
  have hall : ∀ x ∈ List.dropWhile pyIsSpace l, pyIsSpace x = true := by
    intro x hx
    exact List.dropWhile_eq_nil_iff.mp hrev x (List.mem_reverse.mpr hx)
  have hsplit := List.takeWhile_append_dropWhile pyIsSpace l
  rw [← hsplit] at hm
  rcases List.mem_append.mp hm with hmt | hmd
  · have := List.mem_takeWhile_imp hmt
    rw [hc] at this
    exact Bool.true_eq_false.mp this.symm
  · have := hall c hmd
    rw [hc] at this
    exact Bool.true_eq_false.mp this.symm

theorem pyStripList_pyStripList_ne_nil {l : List Char} (h : pyStripList l ≠ []) :
    pyStripList (pyStripList l) ≠ [] := by
  have hrevne : (List.dropWhile pyIsSpace l).reverse.dropWhile pyIsSpace ≠ [] := by
    intro hnil
    apply h
    unfold pyStripList
    rw [hnil]
    rfl
  rcases he : (List.dropWhile pyIsSpace l).reverse.dropWhile pyIsSpace with _ | ⟨c, t⟩
  · exact absurd he hrevne
  · have hcfalse : pyIsSpace c = false := dropWhile_head_false he
    have hcm : c ∈ pyStripList l := by
      unfold pyStripList
      rw [he]
      exact List.mem_reverse.mpr (List.mem_cons_self c t)
    exact pyStripList_ne_nil_of_mem hcm hcfalse

theorem isEmpty_eq_false_of_ne_nil {l : List Char} (h : l ≠ []) :
    l.isEmpty = false := by
  cases l with
  | nil => exact absurd rfl h
  | cons a t => rfl

/-- C7: end-to-end idempotence guard. The synthesized document is whatever
`generate_llmtxt_guidelines` returned — a stripped response text or one of
the two fixed non-whitespace messages. For every run in which the output
file exists with non-empty content: if the synthesized document is
byte-identical to the existing content the write is skipped, and if it
differs the write is performed. (The `strip()`-based `existing_file` flag
cannot misfire on identical content: a synthesizer output that is non-empty
is never all-whitespace.) -/
theorem idempotence_guard_run (fileExists : Bool) (existingContent : String)
    (o : LLMOutcome) (hex : fileExists = true) (hne : existingContent ≠ "") :
    (generateLlmtxtGuidelines o = existingContent →
      shouldWriteGuidelines fileExists existingContent
        (generateLlmtxtGuidelines o) = false)
    ∧ (generateLlmtxtGuidelines o ≠ existingContent →
      shouldWriteGuidelines fileExists existingContent
        (generateLlmtxtGuidelines o) = true) := by
  subst hex
  constructor
  · intro hid
    subst hid
    have hsne : pyStripList (generateLlmtxtGuidelines o).toList ≠ [] := by
      cases o with
      | text s =>
        show pyStripList (pyStripList s.toList) ≠ []
        apply pyStripList_pyStripList_ne_nil
        intro h0
        apply hne
        show pyStrip s = ""
        exact String.ext
          (by rw [show (pyStrip s).data = pyStripList s.toList from rfl, h0])
      | badStructure =>
        show pyStripList ("Unable to generate coding guidelines." : String).toList ≠ []
        decide
      | raised msg =>
        show pyStripList
          (("Error generating coding guidelines: " : String) ++ msg).toList ≠ []
        apply pyStripList_ne_nil_of_mem (c := 'E')
        · show 'E' ∈ ("Error generating coding guidelines: " : String).data ++ msg.data
          exact List.mem_append_left _ (by decide)
        · decide
    unfold shouldWriteGuidelines
    rw [if_pos (by
      unfold existingFileFlag
      rw [isEmpty_eq_false_of_ne_nil hsne]
      rfl)]
    simp
  · intro hdne
    unfold shouldWriteGuidelines
    by_cases hf : existingFileFlag true existingContent = true
    · rw [if_pos hf]
      exact bne_iff_ne.mpr (Ne.symm hdne)
    · rw [if_neg hf]

/-- Witness for C7: the identical-content case at a concrete run — the
existing file holds exactly what the synthesizer returns, and the write is
skipped. -/
theorem idempotence_guard_run_witness :
    shouldWriteGuidelines true "Unable to generate coding guidelines."
      (generateLlmtxtGuidelines LLMOutcome.badStructure) = false :=
  (idempotence_guard_run true "Unable to generate coding guidelines."
    LLMOutcome.badStructure rfl (by decide)).1 rfl

/-! ## Claim C8: large-content truncation in the Guideline Synthesizer -/

theorem string_data_append (a b : String) : (a ++ b).data = a.data ++ b.data := rfl

theorem pyStripList_replicate (c : Char) (h : pyIsSpace c = false) (n : Nat) :
    pyStripList (List.replicate n c) = List.replicate n c := by
  have hdw : ∀ m, List.dropWhile pyIsSpace (List.replicate m c) = List.replicate m c := by
    intro m
    cases m with
    | zero => rfl
    | succ j =>
      rw [List.replicate_succ, List.dropWhile_cons, if_neg]
      simp [h]
  unfold pyStripList
  rw [hdw, List.reverse_replicate, hdw, List.reverse_replicate]

/-- C8: for existing guidelines longer than 20,000 characters (and
non-blank, so the update path is taken), the string substituted into the
update prompt is the optimized view — the regex-extracted
table-of-contents section, the first 10,000 characters, the fixed
truncation marker and the last 5,000 characters — and, as long as the
document does not itself contain the truncation marker, the resulting
prompt differs from the one that would have forwarded the content
verbatim. -/
theorem synthesizer_truncates_large_content (content tmplBefore tmplAfter : String)
    (hne : (pyStripList content.toList).isEmpty = false)
    (hbig : content.toList.length > 20000)
    (hmark : containsSeq truncationMarker.toList content.toList = false) :
    promptExistingArg content = some (optimizedContent content)
    ∧ optimizedContent content =
        tocSection content ++ "\n\n" ++ pySlice 10000 content ++
          ("\n\n...\n" ++ truncationMarker ++ "\n\n") ++ pySliceLast 5000 content
    ∧ updatePromptFor tmplBefore tmplAfter (optimizedContent content)
        ≠ updatePromptFor tmplBefore tmplAfter content := by
  have harg : promptExistingArg content = some (optimizedContent content) := by
    unfold promptExistingArg
    rw [if_neg (by rw [hne]; decide), if_pos hbig]
  have hform : optimizedContent content =
      tocSection content ++ "\n\n" ++ pySlice 10000 content ++
        ("\n\n...\n" ++ truncationMarker ++ "\n\n") ++ pySliceLast 5000 content := by
    unfold optimizedContent
    rw [if_pos (by omega)]
  refine ⟨harg, hform, ?_⟩
  intro heq
  have hdata : tmplBefore.data ++ ((optimizedContent content).data ++ tmplAfter.data)
      = tmplBefore.data ++ (content.data ++ tmplAfter.data) := by
    have hd := congrArg String.data heq
    simpa only [updatePromptFor, string_data_append, List.append_assoc] using hd
  have hopt : (optimizedContent content).data = content.data :=
    List.append_cancel_right (List.append_cancel_left hdata)
  have hinf : truncationMarker.toList <:+: (optimizedContent content).toList := by
    show truncationMarker.data <:+: (optimizedContent content).data
    rw [hform]
    simp only [string_data_append, List.append_assoc]
    have hap := List.infix_append
      ((tocSection content).data ++ ("\n\n".data ++ ((pySlice 10000 content).data ++
        "\n\n...\n".data)))
      truncationMarker.data
      ("\n\n".data ++ (pySliceLast 5000 content).data)
    simpa only [List.append_assoc] using hap
  have hcs : containsSeq truncationMarker.toList content.toList = true := by
    apply containsSeq_of_isInfix
    have : (optimizedContent content).toList = content.toList := hopt
    rw [← this]
    exact hinf
  rw [hcs] at hmark
  exact Bool.true_eq_false.mp hmark

/-- Witness for C8 at a concrete 20,001-character document. -/
theorem synthesizer_truncates_large_content_witness :
    promptExistingArg ⟨List.replicate 20001 'a'⟩ =
        some (optimizedContent ⟨List.replicate 20001 'a'⟩)
    ∧ optimizedContent ⟨List.replicate 20001 'a'⟩ =
        tocSection ⟨List.replicate 20001 'a'⟩ ++ "\n\n" ++
          pySlice 10000 ⟨List.replicate 20001 'a'⟩ ++
          ("\n\n...\n" ++ truncationMarker ++ "\n\n") ++
          pySliceLast 5000 ⟨List.replicate 20001 'a'⟩
    ∧ updatePromptFor "" "" (optimizedContent ⟨List.replicate 20001 'a'⟩)
        ≠ updatePromptFor "" "" ⟨List.replicate 20001 'a'⟩ := by
  have h1 : (pyStripList (⟨List.replicate 20001 'a'⟩ : String).toList).isEmpty = false := by
    show (pyStripList (List.replicate 20001 'a')).isEmpty = false
    rw [pyStripList_replicate 'a' (by decide)]
    rw [show (20001 : Nat) = 20000 + 1 from rfl, List.replicate_succ]
    rfl
  have h2 : (⟨List.replicate 20001 'a'⟩ : String).toList.length > 20000 := by
    show (List.replicate 20001 'a').length > 20000
    rw [List.length_replicate]
    omega
  have h3 : containsSeq truncationMarker.toList
      (⟨List.replicate 20001 'a'⟩ : String).toList = false := by
    show containsSeq truncationMarker.toList (List.replicate 20001 'a') = false
    cases hc : containsSeq truncationMarker.toList (List.replicate 20001 'a') with
    | false => rfl
    | true =>
      exfalso
      have hinf := isInfix_of_containsSeq hc
      have hmem : '[' ∈ List.replicate 20001 'a' :=
        hinf.subset (by decide : '[' ∈ truncationMarker.toList)
      have := List.eq_of_mem_replicate hmem
      exact absurd this (by decide)
  exact synthesizer_truncates_large_content ⟨List.replicate 20001 'a'⟩ "" "" h1 h2 h3

/-! ## Claim C9: Cost Ledger mutual exclusion — refuted -/

/-- C9 counterexample: the counter updates of `tracked_invoke_model` are
plain unsynchronized read-modify-writes, and the interleaving
load₀, load₁, store₀, store₁ of two concurrent classifications (amounts 1
and 0, counter starting at 0) completes both updates yet loses the first
increment — so the updates are not executed under mutual exclusion. -/
theorem cost_ledger_lost_update_counterexample : ¬ ledgerUpdatesNeverLost := by
  intro h
  have hc := h 1 0 0 [false, true, false, true] (by constructor <;> rfl)
  have : (runLedgerSchedule 1 0 0 [false, true, false, true]).cell = 0 := rfl
  rw [this] at hc
  exact absurd hc (by decide)

/-- C9 amended: the ledger-update path of `tracked_invoke_model` acquires
no lock, and for every pair of concurrent updates there is an interleaving
that completes both yet leaves only the second amount added — the
increment of the first classification is lost. -/
theorem cost_ledger_unsynchronized_lost_update (a0 a1 init : Nat) :
    LedgerOp.acquireLock ∉ trackedInvokeLedgerOps
    ∧ ∃ schedule, ledgerRunComplete a0 a1 init schedule ∧
        (runLedgerSchedule a0 a1 init schedule).cell = init + a1 := by
  refine ⟨by decide, [false, true, false, true], ⟨rfl, rfl⟩, rfl⟩

/-- Witness for the amended C9: two updates of 2 and 3 tokens on a ledger
at 5 can interleave so that both complete yet only 3 is added. -/
theorem cost_ledger_unsynchronized_lost_update_witness :
    LedgerOp.acquireLock ∉ trackedInvokeLedgerOps
    ∧ ∃ schedule, ledgerRunComplete 2 3 5 schedule ∧
        (runLedgerSchedule 2 3 5 schedule).cell = 5 + 3 :=
  cost_ledger_unsynchronized_lost_update 2 3 5

/-! ## Claim C10: checkpoint-save failures never interrupt the run -/

theorem iterationWithSave_eq (acc : RunAcc) (r : PRAnalysis) (saveOk : Bool) :
    iterationWithSave acc r saveOk = accumulateResult acc r := by
  cases saveOk <;> rfl

theorem analysisLoop_saves_irrelevant (results : List (Option PRAnalysis)) :
    ∀ (saves saves' : Nat → Bool) (i j : Nat) (acc : RunAcc),
      analysisLoop saves i acc results = analysisLoop saves' j acc results := by
  induction results with
  | nil => intro _ _ _ _ _; rfl
  | cons head rest ih =>
    intro saves saves' i j acc
    cases head with
    | none => exact ih saves saves' i j acc
    | some r =>
      show analysisLoop saves (i + 1) (iterationWithSave acc r (saves i)) rest
          = analysisLoop saves' (j + 1) (iterationWithSave acc r (saves' j)) rest
      rw [iterationWithSave_eq, iterationWithSave_eq]
      exact ih saves saves' (i + 1) (j + 1) (accumulateResult acc r)

/-- C10: checkpoint-save exceptions (per-PR saves and the stage-marker
save) are caught and logged: the accumulated state and the function's
boolean return value are identical to those of a run whose saves all
succeed, the remaining PRs are still folded in, and the return value
depends only on whether synthesis succeeded. -/
theorem checkpoint_save_failures_invisible (saves : Nat → Bool) (stageSaveOk : Bool)
    (results : List (Option PRAnalysis)) (synthesisOk : Bool) :
    generateLlmtxtOutcome saves stageSaveOk results synthesisOk
        = generateLlmtxtOutcome (fun _ => true) true results synthesisOk
    ∧ (generateLlmtxtOutcome saves stageSaveOk results synthesisOk).2 = synthesisOk := by
  constructor
  · unfold generateLlmtxtOutcome
    rw [analysisLoop_saves_irrelevant results saves (fun _ => true) 0 0 initRunAcc]
  · unfold generateLlmtxtOutcome
    cases synthesisOk <;> rfl

end AutoDoc
